import Mathlib

/-!
Shallow embedding of src/main/two_way_comm.c (ESP-NOW two-way communication
program) and proofs about its peer registry, send coordinator and driver loop.

Global C state modelled here:
  peer_found, peer_mac, last_peer_time        -> PeerSlot
  send_semaphore, send_success                -> SemState
  sequence_number, last_discovery_time (app_main locals) -> DriverLocals
Calls into the ESP-NOW transport (esp_now_add_peer, esp_now_del_peer) are
recorded as an operation log; frame submissions are recorded as emissions.
Timestamps are Int, matching the int64_t millisecond values in the C code.
-/

set_option autoImplicit false

namespace EspNowTwoWay

/-- Configuration constant MAX_RETRIES from two_way_comm.c line 30. -/
def MAX_RETRIES : Nat := 5

/-- Configuration constant PEER_TIMEOUT_MS from two_way_comm.c line 28. -/
def PEER_TIMEOUT_MS : Int := 10000

/-- Configuration constant DISCOVERY_INTERVAL_MS from two_way_comm.c line 29. -/
def DISCOVERY_INTERVAL_MS : Int := 5000

/-- A 6-byte hardware (MAC) address; each field is one uint8_t byte. -/
structure Mac where
  b0 : Nat
  b1 : Nat
  b2 : Nat
  b3 : Nat
  b4 : Nat
  b5 : Nat
deriving DecidableEq, Repr

/-- The broadcast sentinel address, broadcast_mac in the C code (all 0xFF). -/
def broadcast_mac : Mac := ⟨255, 255, 255, 255, 255, 255⟩

/-- The peer registry globals of the C program: peer_found, peer_mac and
last_peer_time. -/
structure PeerSlot where
  peer_found : Bool
  peer_mac : Mac
  last_peer_time : Int
deriving DecidableEq, Repr

/-- Initial values of the registry globals (peer_mac is zero-initialised,
peer_found is false, last_peer_time is 0). -/
def initialSlot : PeerSlot := ⟨false, ⟨0, 0, 0, 0, 0, 0⟩, 0⟩

/-- An operation on the ESP-NOW peer list (the transport allow-list):
esp_now_del_peer or esp_now_add_peer. -/
inductive PeerOp where
  | del (m : Mac)
  | add (m : Mac)
deriving DecidableEq, Repr

/-- Embedding of on_data_recv (two_way_comm.c lines 61-93), restricted to its
state effect. The frame payload is not modelled: the command branch at line 89
only logs and mutates nothing. Returns the new registry state and the list of
allow-list operations performed, in order. -/
def on_data_recv (s : PeerSlot) (src : Mac) (now : Int) : PeerSlot × List PeerOp :=
  if src ≠ broadcast_mac then
    if s.peer_found = false ∨ src ≠ s.peer_mac then
      (⟨true, src, now⟩,
        (if s.peer_found then [PeerOp.del s.peer_mac] else []) ++ [PeerOp.add src])
    else
      ({ s with last_peer_time := now }, [])
  else
    (s, [])

/-- The send_semaphore and send_success globals. count is true when a give of
the binary semaphore is pending; send_success is the volatile flag written by
the send callback before the give. -/
structure SemState where
  count : Bool
  send_success : Bool
deriving DecidableEq, Repr

/-- Embedding of on_data_sent (two_way_comm.c lines 55-59): writes send_success
from the callback status and gives the binary semaphore (a give on an already
given binary semaphore leaves it given). -/
def on_data_sent (status : Bool) (_sem : SemState) : SemState :=
  { count := true, send_success := status }

/-- Environment of one iteration of the retry loop in send_with_retry, fixing
one interleaving of the asynchronous transport callbacks with the loop:
submitOk is whether esp_now_send returned ESP_OK; cbInWindow is the status of
a completion callback arriving during the 1000 ms xSemaphoreTake wait of this
iteration, if any; cbLate is the status of a completion callback arriving
after the wait of this iteration has concluded (or during the retry delay of
a rejected submission) but before the next take, if any. -/
structure AttemptEnv where
  submitOk : Bool
  cbInWindow : Option Bool
  cbLate : Option Bool
deriving DecidableEq, Repr

/-- One iteration of the retry loop body (two_way_comm.c lines 123-141) under
environment e. Returns the semaphore state after the iteration and the result
of the completion wait: none when the submission was rejected or the wait
timed out, some st when the take consumed a give whose recorded status was
st. When a give is already pending at the take (a stale signal from an
earlier iteration that concluded by timeout), the take consumes it
immediately: the C code never drains the semaphore before submitting. -/
def attemptStep (sem : SemState) (e : AttemptEnv) : SemState × Option Bool :=
  if e.submitOk then
    let afterWait : SemState × Option Bool :=
      if sem.count then
        ({ sem with count := false }, some sem.send_success)
      else
        match e.cbInWindow with
        | some st => ({ count := false, send_success := st }, some st)
        | none => (sem, none)
    match e.cbLate with
    | some st => (on_data_sent st afterWait.1, afterWait.2)
    | none => afterWait
  else
    match e.cbLate with
    | some st => (on_data_sent st sem, none)
    | none => (sem, none)

/-- The retry loop of send_with_retry: i is the index of the current attempt,
the second argument the number of attempts remaining. Returns (result,
final semaphore state, number of esp_now_send submissions performed). The
loop returns true as soon as a wait yields a positive status and otherwise
retries. -/
def send_with_retry_go (env : Nat → AttemptEnv) : Nat → Nat → SemState → Bool × SemState × Nat
  | _, 0, sem => (false, sem, 0)
  | i, Nat.succ rem, sem =>
    let p := attemptStep sem (env i)
    if p.2 = some true then
      (true, p.1, 1)
    else
      let r := send_with_retry_go env (i + 1) rem p.1
      (r.1, r.2.1, r.2.2 + 1)

/-- Embedding of send_with_retry (two_way_comm.c lines 121-144): up to
MAX_RETRIES iterations starting from semaphore state sem, under the callback
interleaving env. -/
def send_with_retry (env : Nat → AttemptEnv) (sem : SemState) : Bool × SemState × Nat :=
  send_with_retry_go env 0 MAX_RETRIES sem

/-- Attempt i has a positive completion signal of its own: the submission was
accepted and a success callback arrived within the wait window. -/
def posAt (env : Nat → AttemptEnv) (i : Nat) : Prop :=
  (env i).submitOk = true ∧ (env i).cbInWindow = some true

instance (env : Nat → AttemptEnv) (i : Nat) : Decidable (posAt env i) := by
  unfold posAt
  infer_instance

/-- A frame submission made by one tick of the app_main loop: a unicast
heartbeat to the peer or a broadcast discovery probe, with its payload. -/
inductive Emission where
  | unicast (dest : Mac) (payload : String)
  | broadcast (payload : String)
deriving DecidableEq, Repr

/-- Payload carried by an emission. -/
def payloadOf : Emission → String
  | Emission.unicast _ p => p
  | Emission.broadcast p => p

/-- Whether an emission is a broadcast discovery probe. -/
def isBroadcast : Emission → Bool
  | Emission.unicast _ _ => false
  | Emission.broadcast _ => true

/-- Whether an emission is a unicast heartbeat. -/
def isUnicast : Emission → Bool
  | Emission.unicast _ _ => true
  | Emission.broadcast _ => false

/-- The app_main locals sequence_number and last_discovery_time. -/
structure DriverLocals where
  sequence_number : Nat
  last_discovery_time : Int
deriving DecidableEq, Repr

/-- Per-tick environment: the value of esp_timer_get_time()/1000 read at the
top of the loop, and the outcomes of the send_with_retry calls for the
unicast heartbeat and the broadcast probe (consulted only when the
corresponding call is made). -/
structure TickEnv where
  current_time : Int
  unicastOk : Bool
  broadcastOk : Bool
deriving DecidableEq, Repr

/-- Uppercase hexadecimal digit for n < 16, as produced by printf %X. -/
def hexDigit (n : Nat) : Char :=
  if n < 10 then Char.ofNat (48 + n) else Char.ofNat (55 + n)

/-- Two-digit uppercase hexadecimal rendering of one byte, as produced by
printf %02X on a uint8_t value. -/
def hexByte2 (b : Nat) : String :=
  String.mk [hexDigit (b / 16 % 16), hexDigit (b % 16)]

/-- The message built by the snprintf at two_way_comm.c line 188:
"%02X%02X_%d" applied to bytes 4 and 5 of the local MAC address and the
current sequence number. The 64-byte buffer never truncates this string. -/
def mkMessage (myMac : Mac) (seq : Nat) : String :=
  hexByte2 myMac.b4 ++ hexByte2 myMac.b5 ++ "_" ++ toString seq

/-- The peer timeout check at the top of the loop (two_way_comm.c lines
181-186): if a peer is active and now - last_peer_time > PEER_TIMEOUT_MS,
delete the peer from the allow-list and clear peer_found. peer_mac itself is
not cleared (only the display string is). -/
def checkTimeoutPhase (s : PeerSlot) (now : Int) : PeerSlot × List PeerOp :=
  if s.peer_found = true ∧ now - s.last_peer_time > PEER_TIMEOUT_MS then
    ({ s with peer_found := false }, [PeerOp.del s.peer_mac])
  else
    (s, [])

/-- The unicast heartbeat block (two_way_comm.c lines 190-197): if a peer is
active, send the message to it with send_with_retry; on failure delete the
peer from the allow-list and clear peer_found. uOk is the outcome of the
send_with_retry call. -/
def heartbeatPhase (s : PeerSlot) (msg : String) (uOk : Bool) : PeerSlot × List Emission × List PeerOp :=
  if s.peer_found then
    if uOk then
      (s, [Emission.unicast s.peer_mac msg], [])
    else
      ({ s with peer_found := false }, [Emission.unicast s.peer_mac msg], [PeerOp.del s.peer_mac])
  else
    (s, [], [])

/-- The discovery broadcast block (two_way_comm.c lines 200-207): broadcast
the message when no peer is active or now - last_discovery_time >
DISCOVERY_INTERVAL_MS; on successful broadcast set last_discovery_time to
now. bOk is the outcome of the send_with_retry call. -/
def discoveryPhase (s : PeerSlot) (loc : DriverLocals) (now : Int) (msg : String) (bOk : Bool) : DriverLocals × List Emission :=
  if s.peer_found = false ∨ now - loc.last_discovery_time > DISCOVERY_INTERVAL_MS then
    if bOk then
      ({ loc with last_discovery_time := now }, [Emission.broadcast msg])
    else
      (loc, [Emission.broadcast msg])
  else
    (loc, [])

/-- Result of one tick of the app_main loop: new registry state, new locals,
the frame submissions made, and the allow-list operations performed. -/
structure TickResult where
  slot : PeerSlot
  locs : DriverLocals
  emissions : List Emission
  peerOps : List PeerOp
deriving DecidableEq, Repr

/-- One iteration of the while loop of app_main (two_way_comm.c lines
178-210): read the time, run the peer timeout check, build the message
(post-incrementing sequence_number), send the unicast heartbeat if a peer is
active, then the discovery broadcast if due. -/
def tick (myMac : Mac) (s : PeerSlot) (loc : DriverLocals) (env : TickEnv) : TickResult :=
  let now := env.current_time
  let c := checkTimeoutPhase s now
  let msg := mkMessage myMac loc.sequence_number
  let loc1 : DriverLocals := { loc with sequence_number := loc.sequence_number + 1 }
  let h := heartbeatPhase c.1 msg env.unicastOk
  let d := discoveryPhase h.1 loc1 now msg env.broadcastOk
  { slot := h.1, locs := d.1, emissions := h.2.1 ++ d.2, peerOps := c.2 ++ h.2.2 }

/-- Folding a list of receive events (source address, arrival time) through
on_data_recv, tracking only the registry state. -/
def runRecv (s : PeerSlot) (evs : List (Mac × Int)) : PeerSlot :=
  evs.foldl (fun st e => (on_data_recv st e.1 e.2).1) s

/-- A callback interleaving in which attempt 0 times out and its success
callback arrives late, after the wait has concluded; attempt 1 receives no
callback of its own during its wait. -/
def staleTrace : Nat → AttemptEnv := fun i =>
  if i = 0 then ⟨true, none, some true⟩ else ⟨true, none, none⟩

/-- One on_data_recv step preserves the property that an active slot never
stores the broadcast address. -/
lemma recv_preserves_nonbroadcast (s : PeerSlot) (src : Mac) (now : Int)
    (h : s.peer_found = true → s.peer_mac ≠ broadcast_mac) :
    (on_data_recv s src now).1.peer_found = true →
      (on_data_recv s src now).1.peer_mac ≠ broadcast_mac := by
  unfold on_data_recv
  by_cases hb : src = broadcast_mac
  · simp only [hb, ne_eq, not_true_eq_false, if_false]
    exact h
  · simp only [ne_eq, hb, not_false_eq_true, if_true]
    by_cases hcond : s.peer_found = false ∨ src ≠ s.peer_mac
    · simp only [hcond, if_true]
      exact fun _ => hb
    · simp only [hcond, if_false]
      exact h

/-- The non-broadcast-address invariant holds along any receive trace whose
start state satisfies it. -/
lemma runRecv_inv (evs : List (Mac × Int)) :
    ∀ s : PeerSlot, (s.peer_found = true → s.peer_mac ≠ broadcast_mac) →
      ((runRecv s evs).peer_found = true → (runRecv s evs).peer_mac ≠ broadcast_mac) := by
  induction evs with
  | nil => exact fun s h => h
  | cons e t ih =>
    intro s h
    exact ih _ (recv_preserves_nonbroadcast s e.1 e.2 h)

/-- C1: the claim says the completion semaphore is drained before every
submission, so a stale completion signal of a concluded attempt is never
consumed by a later attempt. The code has no drain: in the staleTrace
interleaving, attempt 0 concludes by timeout, its late success callback then
gives the semaphore, and attempt 1 consumes that stale give as its own
completion signal, returning Delivered after 2 submissions although attempt
1 received no signal of its own. -/
theorem C1_stale_signal_consumed :
    (attemptStep ⟨false, false⟩ (staleTrace 0)).2 = none
    ∧ (attemptStep ⟨false, false⟩ (staleTrace 0)).1.count = true
    ∧ (staleTrace 1).cbInWindow = none
    ∧ send_with_retry staleTrace ⟨false, false⟩ = (true, ⟨false, true⟩, 2) := by
  refine ⟨rfl, rfl, rfl, ?_⟩
  decide

/-- C3 counterexample: in an execution where the local node address is
10:20:30:40:50:60, a frame whose source is that very address still moves the
empty slot to Active and stores the local address; on_data_recv never
compares the source against the local address, so the transition is not
restricted to non-self sources as claimed. -/
theorem C3_counterexample :
    ((on_data_recv initialSlot ⟨16, 32, 48, 64, 80, 96⟩ 7).1.peer_found = true)
    ∧ (on_data_recv initialSlot ⟨16, 32, 48, 64, 80, 96⟩ 7).1.peer_mac
        = ⟨16, 32, 48, 64, 80, 96⟩ := by
  exact ⟨rfl, rfl⟩

/-- C3 (amended): the transition Empty to Active happens only on a received
frame whose source is not the broadcast sentinel (the adopted address being
that source), and along every receive trace from the initial state an Active
slot never stores the broadcast address. The own-address half of the
original claim is dropped: the code performs no such check. -/
theorem C3_empty_to_active_nonbroadcast (s : PeerSlot) (src : Mac) (now : Int)
    (evs : List (Mac × Int)) (hE : s.peer_found = false) :
    ((on_data_recv s src now).1.peer_found = true →
      src ≠ broadcast_mac ∧ (on_data_recv s src now).1.peer_mac = src)
    ∧ ((runRecv initialSlot evs).peer_found = true →
        (runRecv initialSlot evs).peer_mac ≠ broadcast_mac) := by
  constructor
  · intro hact
    by_cases hb : src = broadcast_mac
    · exfalso
      rw [on_data_recv] at hact
      simp only [hb, ne_eq, not_true_eq_false, if_false] at hact
      rw [hE] at hact
      exact Bool.false_ne_true hact
    · refine ⟨hb, ?_⟩
      rw [on_data_recv]
      simp only [ne_eq, hb, not_false_eq_true, if_true, hE, true_or, if_true]
  · exact runRecv_inv evs initialSlot (by decide)

/-- Closed instance of the amended C3 theorem at a concrete state, frame and
trace. -/
theorem C3_empty_to_active_nonbroadcast_witness :
    ((on_data_recv initialSlot ⟨1, 2, 3, 4, 5, 6⟩ 5).1.peer_found = true →
      (⟨1, 2, 3, 4, 5, 6⟩ : Mac) ≠ broadcast_mac
        ∧ (on_data_recv initialSlot ⟨1, 2, 3, 4, 5, 6⟩ 5).1.peer_mac = ⟨1, 2, 3, 4, 5, 6⟩)
    ∧ ((runRecv initialSlot [(⟨1, 2, 3, 4, 5, 6⟩, 5)]).peer_found = true →
        (runRecv initialSlot [(⟨1, 2, 3, 4, 5, 6⟩, 5)]).peer_mac ≠ broadcast_mac) :=
  C3_empty_to_active_nonbroadcast initialSlot ⟨1, 2, 3, 4, 5, 6⟩ 5
    [(⟨1, 2, 3, 4, 5, 6⟩, 5)] rfl

/-- C5: with a peer active, the timeout check evicts on this call exactly
when now - last_peer_time > PEER_TIMEOUT_MS, performing exactly the one
allow-list deletion; while the deadline has not passed the call leaves the
state untouched, so no earlier call evicts the peer. -/
theorem C5_checkTimeout_evicts_iff (s : PeerSlot) (now : Int)
    (h : s.peer_found = true) :
    ((checkTimeoutPhase s now).1.peer_found = false ↔
      now - s.last_peer_time > PEER_TIMEOUT_MS)
    ∧ ((checkTimeoutPhase s now).2 = [PeerOp.del s.peer_mac] ↔
      now - s.last_peer_time > PEER_TIMEOUT_MS)
    ∧ (now - s.last_peer_time ≤ PEER_TIMEOUT_MS → checkTimeoutPhase s now = (s, [])) := by
  unfold checkTimeoutPhase
  by_cases hgt : now - s.last_peer_time > PEER_TIMEOUT_MS
  · rw [if_pos ⟨h, hgt⟩]
    exact ⟨⟨fun _ => hgt, fun _ => rfl⟩, ⟨fun _ => hgt, fun _ => rfl⟩,
      fun hle => absurd hgt (not_lt.mpr hle)⟩
  · have hcond : ¬(s.peer_found = true ∧ now - s.last_peer_time > PEER_TIMEOUT_MS) :=
      fun hc => hgt hc.2
    rw [if_neg hcond]
    refine ⟨⟨fun hf => ?_, fun hp => absurd hp hgt⟩,
      ⟨fun heq => absurd heq (by simp), fun hp => absurd hp hgt⟩, fun _ => rfl⟩
    rw [h] at hf
    exact absurd hf (by decide)

/-- Closed instance of the C5 theorem at a concrete active slot and call
time past the deadline. -/
theorem C5_checkTimeout_evicts_iff_witness :
    ((checkTimeoutPhase ⟨true, ⟨1, 2, 3, 4, 5, 6⟩, 0⟩ 20000).1.peer_found = false ↔
      (20000 : Int) - (0 : Int) > PEER_TIMEOUT_MS)
    ∧ ((checkTimeoutPhase ⟨true, ⟨1, 2, 3, 4, 5, 6⟩, 0⟩ 20000).2
        = [PeerOp.del ⟨1, 2, 3, 4, 5, 6⟩] ↔ (20000 : Int) - (0 : Int) > PEER_TIMEOUT_MS)
    ∧ ((20000 : Int) - (0 : Int) ≤ PEER_TIMEOUT_MS →
        checkTimeoutPhase ⟨true, ⟨1, 2, 3, 4, 5, 6⟩, 0⟩ 20000
          = (⟨true, ⟨1, 2, 3, 4, 5, 6⟩, 0⟩, [])) :=
  C5_checkTimeout_evicts_iff ⟨true, ⟨1, 2, 3, 4, 5, 6⟩, 0⟩ 20000 rfl

/-- C7: a frame whose source equals the currently active peer address only
refreshes last_peer_time; the stored address is unchanged and no allow-list
operation is performed. -/
theorem C7_idempotent_refresh (s : PeerSlot) (src : Mac) (now : Int)
    (hA : s.peer_found = true) (hB : s.peer_mac ≠ broadcast_mac)
    (hs : src = s.peer_mac) :
    on_data_recv s src now = ({ s with last_peer_time := now }, []) := by
  subst hs
  unfold on_data_recv
  simp [hA, hB]

/-- Closed instance of the C7 theorem at a concrete active slot receiving a
frame from the same address. -/
theorem C7_idempotent_refresh_witness :
    on_data_recv ⟨true, ⟨1, 2, 3, 4, 5, 6⟩, 0⟩ ⟨1, 2, 3, 4, 5, 6⟩ 42
      = (⟨true, ⟨1, 2, 3, 4, 5, 6⟩, 42⟩, []) :=
  C7_idempotent_refresh ⟨true, ⟨1, 2, 3, 4, 5, 6⟩, 0⟩ ⟨1, 2, 3, 4, 5, 6⟩ 42
    rfl (by decide) rfl

/-- C8: a non-broadcast frame from an address different from the active peer
performs exactly one allow-list deletion of the old address followed by
exactly one addition of the new address, adopts the new address and sets
last_peer_time to now. -/
theorem C8_replace_peer (s : PeerSlot) (src : Mac) (now : Int)
    (hA : s.peer_found = true) (hb : src ≠ broadcast_mac) (hne : src ≠ s.peer_mac) :
    on_data_recv s src now
      = (⟨true, src, now⟩, [PeerOp.del s.peer_mac, PeerOp.add src]) := by
  unfold on_data_recv
  simp [hA, hb, hne]

/-- Closed instance of the C8 theorem at a concrete active slot receiving a
frame from a different address. -/
theorem C8_replace_peer_witness :
    on_data_recv ⟨true, ⟨1, 2, 3, 4, 5, 6⟩, 0⟩ ⟨9, 9, 9, 9, 9, 9⟩ 42
      = (⟨true, ⟨9, 9, 9, 9, 9, 9⟩, 42⟩,
          [PeerOp.del ⟨1, 2, 3, 4, 5, 6⟩, PeerOp.add ⟨9, 9, 9, 9, 9, 9⟩]) :=
  C8_replace_peer ⟨true, ⟨1, 2, 3, 4, 5, 6⟩, 0⟩ ⟨9, 9, 9, 9, 9, 9⟩ 42
    rfl (by decide) (by decide)

/-- When the timeout check reports an active peer afterwards, it did
nothing: the eviction branch always clears peer_found. -/
lemma checkTimeoutPhase_active (s : PeerSlot) (now : Int)
    (h : (checkTimeoutPhase s now).1.peer_found = true) :
    checkTimeoutPhase s now = (s, []) := by
  by_cases hc : s.peer_found = true ∧ now - s.last_peer_time > PEER_TIMEOUT_MS
  · exfalso
    unfold checkTimeoutPhase at h
    rw [if_pos hc] at h
    exact Bool.false_ne_true h
  · unfold checkTimeoutPhase
    rw [if_neg hc]

/-- The timeout check never fires while the timeout has not elapsed. -/
lemma checkTimeoutPhase_fresh (s : PeerSlot) (now : Int)
    (hT : now - s.last_peer_time ≤ PEER_TIMEOUT_MS) :
    checkTimeoutPhase s now = (s, []) := by
  unfold checkTimeoutPhase
  exact if_neg fun hc => absurd hc.2 (not_lt.mpr hT)

/-- A tick that starts with no active peer makes exactly one submission: the
broadcast discovery probe carrying the message of this tick. -/
lemma tick_no_peer (myMac : Mac) (s : PeerSlot) (loc : DriverLocals) (env : TickEnv)
    (h : s.peer_found = false) :
    (tick myMac s loc env).emissions
      = [Emission.broadcast (mkMessage myMac loc.sequence_number)] := by
  have hc : ¬(s.peer_found = true ∧ env.current_time - s.last_peer_time > PEER_TIMEOUT_MS) := by
    rw [h]
    exact fun hcc => Bool.false_ne_true hcc.1
  simp only [tick, checkTimeoutPhase, if_neg hc, heartbeatPhase, discoveryPhase]
  simp [h]
  cases hb : env.broadcastOk <;> simp [hb]

/-- The heartbeat block never emits a broadcast frame. -/
lemma heartbeat_no_broadcast (s : PeerSlot) (msg : String) (uOk : Bool) :
    ((heartbeatPhase s msg uOk).2.1).any isBroadcast = false := by
  unfold heartbeatPhase
  cases hpf : s.peer_found <;> cases huOk : uOk <;> simp [isBroadcast]

/-- The discovery block broadcasts exactly when no peer is active or the
discovery interval has elapsed, records the broadcast time exactly on a
successful broadcast, and leaves the sequence number alone. -/
lemma discoveryPhase_spec (s : PeerSlot) (loc : DriverLocals) (now : Int)
    (msg : String) (bOk : Bool) :
    ((discoveryPhase s loc now msg bOk).2.any isBroadcast = true ↔
      (s.peer_found = false ∨ now - loc.last_discovery_time > DISCOVERY_INTERVAL_MS))
    ∧ ((discoveryPhase s loc now msg bOk).1.last_discovery_time =
        if (s.peer_found = false ∨ now - loc.last_discovery_time > DISCOVERY_INTERVAL_MS)
            ∧ bOk = true
        then now else loc.last_discovery_time)
    ∧ (discoveryPhase s loc now msg bOk).1.sequence_number = loc.sequence_number := by
  unfold discoveryPhase
  by_cases hc : s.peer_found = false ∨ now - loc.last_discovery_time > DISCOVERY_INTERVAL_MS
  · rw [if_pos hc]
    cases hb : bOk <;> simp [isBroadcast, hc, hb]
  · rw [if_neg hc]
    simp [isBroadcast, hc]

/-- C4: when the unicast send to the active (and not timed-out) peer fails,
the tick evicts the peer, with exactly one allow-list deletion of its
address; the following tick, whatever its environment, makes exactly one
submission, the broadcast discovery probe, and no unicast heartbeat. -/
theorem C4_failed_send_evicts (myMac : Mac) (s : PeerSlot) (loc : DriverLocals)
    (env env2 : TickEnv) (hA : s.peer_found = true)
    (hT : env.current_time - s.last_peer_time ≤ PEER_TIMEOUT_MS)
    (hF : env.unicastOk = false) :
    (tick myMac s loc env).slot.peer_found = false
    ∧ (tick myMac s loc env).peerOps = [PeerOp.del s.peer_mac]
    ∧ (tick myMac (tick myMac s loc env).slot (tick myMac s loc env).locs env2).emissions
        = [Emission.broadcast (mkMessage myMac (tick myMac s loc env).locs.sequence_number)] := by
  have hct := checkTimeoutPhase_fresh s env.current_time hT
  have h1 : (tick myMac s loc env).slot.peer_found = false := by
    simp only [tick, hct, heartbeatPhase, hA, hF]
    simp
  refine ⟨h1, ?_, tick_no_peer myMac _ _ env2 h1⟩
  simp only [tick, hct, heartbeatPhase, hA, hF]
  simp

/-- Closed instance of the C4 theorem at a concrete active slot whose
unicast send fails. -/
theorem C4_failed_send_evicts_witness :
    (tick ⟨0, 0, 0, 0, 10, 255⟩ ⟨true, ⟨1, 2, 3, 4, 5, 6⟩, 0⟩ ⟨3, 0⟩
        ⟨500, false, true⟩).slot.peer_found = false
    ∧ (tick ⟨0, 0, 0, 0, 10, 255⟩ ⟨true, ⟨1, 2, 3, 4, 5, 6⟩, 0⟩ ⟨3, 0⟩
        ⟨500, false, true⟩).peerOps = [PeerOp.del ⟨1, 2, 3, 4, 5, 6⟩]
    ∧ (tick ⟨0, 0, 0, 0, 10, 255⟩
        (tick ⟨0, 0, 0, 0, 10, 255⟩ ⟨true, ⟨1, 2, 3, 4, 5, 6⟩, 0⟩ ⟨3, 0⟩
          ⟨500, false, true⟩).slot
        (tick ⟨0, 0, 0, 0, 10, 255⟩ ⟨true, ⟨1, 2, 3, 4, 5, 6⟩, 0⟩ ⟨3, 0⟩
          ⟨500, false, true⟩).locs
        ⟨1500, true, false⟩).emissions
        = [Emission.broadcast (mkMessage ⟨0, 0, 0, 0, 10, 255⟩
            (tick ⟨0, 0, 0, 0, 10, 255⟩ ⟨true, ⟨1, 2, 3, 4, 5, 6⟩, 0⟩ ⟨3, 0⟩
              ⟨500, false, true⟩).locs.sequence_number)] :=
  C4_failed_send_evicts ⟨0, 0, 0, 0, 10, 255⟩ ⟨true, ⟨1, 2, 3, 4, 5, 6⟩, 0⟩ ⟨3, 0⟩
    ⟨500, false, true⟩ ⟨1500, true, false⟩ rfl (by decide) rfl

/-- C6: a tick broadcasts a discovery probe exactly when no peer is active
at the discovery decision (the slot state the tick ends with) or the
discovery interval has elapsed since last_discovery_time, and
last_discovery_time becomes the current time exactly when the broadcast is
made and succeeds. -/
theorem C6_discovery_cadence (myMac : Mac) (s : PeerSlot) (loc : DriverLocals)
    (env : TickEnv) :
    ((tick myMac s loc env).emissions.any isBroadcast = true ↔
      ((tick myMac s loc env).slot.peer_found = false
        ∨ env.current_time - loc.last_discovery_time > DISCOVERY_INTERVAL_MS))
    ∧ (tick myMac s loc env).locs.last_discovery_time =
        (if ((tick myMac s loc env).slot.peer_found = false
              ∨ env.current_time - loc.last_discovery_time > DISCOVERY_INTERVAL_MS)
            ∧ env.broadcastOk = true
          then env.current_time else loc.last_discovery_time) := by
  have hH := heartbeat_no_broadcast (checkTimeoutPhase s env.current_time).1
    (mkMessage myMac loc.sequence_number) env.unicastOk
  have hD := discoveryPhase_spec
    (heartbeatPhase (checkTimeoutPhase s env.current_time).1
      (mkMessage myMac loc.sequence_number) env.unicastOk).1
    { loc with sequence_number := loc.sequence_number + 1 }
    env.current_time (mkMessage myMac loc.sequence_number) env.broadcastOk
  constructor
  · show ((heartbeatPhase (checkTimeoutPhase s env.current_time).1
        (mkMessage myMac loc.sequence_number) env.unicastOk).2.1
      ++ (discoveryPhase
            (heartbeatPhase (checkTimeoutPhase s env.current_time).1
              (mkMessage myMac loc.sequence_number) env.unicastOk).1
            { loc with sequence_number := loc.sequence_number + 1 }
            env.current_time (mkMessage myMac loc.sequence_number)
            env.broadcastOk).2).any isBroadcast = true ↔ _
    rw [List.any_append, hH, Bool.false_or]
    exact hD.1
  · exact hD.2.1

/-- C9: on a tick at which a peer is active after the timeout check, exactly
one unicast heartbeat is submitted, addressed to that peer, and its payload
is the two uppercase hex bytes of the local address suffix, an underscore,
and the decimal sequence number. -/
theorem C9_unicast_heartbeat (myMac : Mac) (s : PeerSlot) (loc : DriverLocals)
    (env : TickEnv)
    (h : (checkTimeoutPhase s env.current_time).1.peer_found = true) :
    (tick myMac s loc env).emissions.filter isUnicast
      = [Emission.unicast s.peer_mac (mkMessage myMac loc.sequence_number)]
    ∧ mkMessage myMac loc.sequence_number
        = hexByte2 myMac.b4 ++ hexByte2 myMac.b5 ++ "_" ++ toString loc.sequence_number := by
  have hct := checkTimeoutPhase_active s env.current_time h
  have hpf : s.peer_found = true := by
    rw [hct] at h
    exact h
  refine ⟨?_, rfl⟩
  simp only [tick, hct]
  cases hu : env.unicastOk <;>
    simp only [heartbeatPhase, discoveryPhase, hpf, hu] <;>
    split_ifs <;>
    simp [isUnicast]

/-- Closed instance of the C9 theorem at a concrete tick with an active
peer. -/
theorem C9_unicast_heartbeat_witness :
    (tick ⟨0, 0, 0, 0, 10, 255⟩ ⟨true, ⟨1, 2, 3, 4, 5, 6⟩, 0⟩ ⟨3, 0⟩
        ⟨500, true, true⟩).emissions.filter isUnicast
      = [Emission.unicast ⟨1, 2, 3, 4, 5, 6⟩ (mkMessage ⟨0, 0, 0, 0, 10, 255⟩ 3)]
    ∧ mkMessage ⟨0, 0, 0, 0, 10, 255⟩ 3
        = hexByte2 10 ++ hexByte2 255 ++ "_" ++ toString 3 :=
  C9_unicast_heartbeat ⟨0, 0, 0, 0, 10, 255⟩ ⟨true, ⟨1, 2, 3, 4, 5, 6⟩, 0⟩ ⟨3, 0⟩
    ⟨500, true, true⟩ (by decide)

/-- C10: every submission of a tick, unicast or broadcast, carries the
single message built at the top of the tick from the current sequence
number, and the sequence number advances by exactly one per tick, whatever
is sent and whether or not any send succeeds. -/
theorem C10_shared_payload_single_increment (myMac : Mac) (s : PeerSlot)
    (loc : DriverLocals) (env : TickEnv) :
    ((tick myMac s loc env).emissions.all
      (fun e => payloadOf e == mkMessage myMac loc.sequence_number) = true)
    ∧ (tick myMac s loc env).locs.sequence_number = loc.sequence_number + 1 := by
  constructor
  · simp only [tick, checkTimeoutPhase, heartbeatPhase, discoveryPhase]
    split_ifs <;> simp [payloadOf]
  · exact (discoveryPhase_spec
      (heartbeatPhase (checkTimeoutPhase s env.current_time).1
        (mkMessage myMac loc.sequence_number) env.unicastOk).1
      { loc with sequence_number := loc.sequence_number + 1 }
      env.current_time (mkMessage myMac loc.sequence_number) env.broadcastOk).2.2

/-- A clean retry-loop iteration (no stale give pending, no late callback)
leaves no give pending and yields exactly the in-window signal of this
iteration, or none when the submission was rejected. -/
lemma attemptStep_clean (sem : SemState) (e : AttemptEnv)
    (hc : sem.count = false) (hl : e.cbLate = none) :
    (attemptStep sem e).1.count = false
    ∧ (attemptStep sem e).2 = (if e.submitOk = true then e.cbInWindow else none) := by
  cases hs : e.submitOk
  · simp [attemptStep, hs, hl, hc]
  · cases hw : e.cbInWindow <;> simp [attemptStep, hs, hl, hc, hw]

/-- The retry loop performs at most as many submissions as it has attempts
remaining. -/
lemma go_submissions_le (env : Nat → AttemptEnv) :
    ∀ (rem i : Nat) (sem : SemState), (send_with_retry_go env i rem sem).2.2 ≤ rem := by
  intro rem
  induction rem with
  | zero =>
    intro i sem
    exact Nat.le_refl 0
  | succ n ih =>
    intro i sem
    have h := ih (i + 1) (attemptStep sem (env i)).1
    simp only [send_with_retry_go]
    split_ifs with hpos
    · exact Nat.succ_le_succ (Nat.zero_le n)
    · exact Nat.succ_le_succ h

/-- Under a clean environment the retry loop returns false exactly when no
remaining attempt has a positive completion signal of its own. -/
lemma go_clean_false_iff (env : Nat → AttemptEnv) (hl : ∀ j, (env j).cbLate = none) :
    ∀ (rem i : Nat) (sem : SemState), sem.count = false →
      ((send_with_retry_go env i rem sem).1 = false ↔ ∀ k < rem, ¬ posAt env (i + k)) := by
  intro rem
  induction rem with
  | zero =>
    intro i sem _
    simp [send_with_retry_go]
  | succ n ih =>
    intro i sem hc
    obtain ⟨hcount, hres⟩ := attemptStep_clean sem (env i) hc (hl i)
    simp only [send_with_retry_go]
    split_ifs with hpos
    · have hpi : posAt env i := by
        rw [hres] at hpos
        by_cases hs : (env i).submitOk = true
        · rw [if_pos hs] at hpos
          exact ⟨hs, hpos⟩
        · rw [if_neg hs] at hpos
          exact absurd hpos (by simp)
      constructor
      · intro hfalse
        exact absurd hfalse (by simp)
      · intro hall
        exact absurd hpi (by simpa using hall 0 (Nat.succ_pos n))
    · have hni : ¬ posAt env i := by
        intro hpi
        apply hpos
        rw [hres, if_pos hpi.1]
        exact hpi.2
      have hrec := ih (i + 1) (attemptStep sem (env i)).1 hcount
      constructor
      · intro hfalse k hk
        cases k with
        | zero => simpa using hni
        | succ m =>
          have hm : m < n := Nat.lt_of_succ_lt_succ hk
          have hstep := (hrec.mp (by simpa using hfalse)) m hm
          have heq : i + 1 + m = i + (m + 1) := by omega
          rwa [heq] at hstep
      · intro hall
        have hrest : ∀ k < n, ¬ posAt env (i + 1 + k) := by
          intro k hk
          have heq : i + 1 + k = i + (k + 1) := by omega
          rw [heq]
          exact hall (k + 1) (Nat.succ_lt_succ hk)
        simpa using hrec.mpr hrest

/-- Under a clean environment, if attempt k is the first with a positive
completion signal, the retry loop returns true after exactly k + 1
submissions. -/
lemma go_clean_first_pos (env : Nat → AttemptEnv) (hl : ∀ j, (env j).cbLate = none) :
    ∀ (rem i : Nat) (sem : SemState), sem.count = false →
      ∀ k, k < rem → posAt env (i + k) → (∀ j, j < k → ¬ posAt env (i + j)) →
        (send_with_retry_go env i rem sem).1 = true
        ∧ (send_with_retry_go env i rem sem).2.2 = k + 1 := by
  intro rem
  induction rem with
  | zero =>
    intro i sem _ k hk
    exact absurd hk (Nat.not_lt_zero k)
  | succ n ih =>
    intro i sem hc k hk hpk hmin
    obtain ⟨hcount, hres⟩ := attemptStep_clean sem (env i) hc (hl i)
    simp only [send_with_retry_go]
    split_ifs with hpos
    · have hpi : posAt env i := by
        rw [hres] at hpos
        by_cases hs : (env i).submitOk = true
        · rw [if_pos hs] at hpos
          exact ⟨hs, hpos⟩
        · rw [if_neg hs] at hpos
          exact absurd hpos (by simp)
      have hk0 : k = 0 := by
        by_contra hne
        exact hmin 0 (Nat.pos_of_ne_zero hne) (by simpa using hpi)
      subst hk0
      exact ⟨rfl, rfl⟩
    · have hni : ¬ posAt env i := by
        intro hpi
        apply hpos
        rw [hres, if_pos hpi.1]
        exact hpi.2
      cases k with
      | zero => exact absurd (by simpa using hpk) hni
      | succ m =>
        have hm : m < n := Nat.lt_of_succ_lt_succ hk
        have hpk' : posAt env (i + 1 + m) := by
          have heq : i + 1 + m = i + (m + 1) := by omega
          rwa [heq]
        have hmin' : ∀ j, j < m → ¬ posAt env (i + 1 + j) := by
          intro j hj
          have heq : i + 1 + j = i + (j + 1) := by omega
          rw [heq]
          exact hmin (j + 1) (Nat.succ_lt_succ hj)
        obtain ⟨h1, h2⟩ := ih (i + 1) (attemptStep sem (env i)).1 hcount m hm hpk' hmin'
        refine ⟨h1, ?_⟩
        show (send_with_retry_go env (i + 1) n (attemptStep sem (env i)).1).2.2 + 1 = m + 1 + 1
        rw [h2]

/-- C2: started with no pending give and with every callback arriving within
the wait of its own attempt (clean correlation), send_with_retry performs at
most MAX_RETRIES submissions, returns false exactly when every attempt was
rejected or received an absent or negative signal, and on the first attempt
with a positive signal returns true immediately, having performed exactly
that many submissions. -/
theorem C2_send_with_retry_semantics (env : Nat → AttemptEnv) (sem : SemState)
    (hc : sem.count = false) (hl : ∀ j, (env j).cbLate = none) :
    (send_with_retry env sem).2.2 ≤ MAX_RETRIES
    ∧ ((send_with_retry env sem).1 = false ↔ ∀ k < MAX_RETRIES, ¬ posAt env k)
    ∧ (∀ k, k < MAX_RETRIES → posAt env k → (∀ j, j < k → ¬ posAt env j) →
        (send_with_retry env sem).1 = true
        ∧ (send_with_retry env sem).2.2 = k + 1) := by
  refine ⟨go_submissions_le env MAX_RETRIES 0 sem, ?_, ?_⟩
  · have h := go_clean_false_iff env hl MAX_RETRIES 0 sem hc
    simpa using h
  · intro k hk hp hm
    exact go_clean_first_pos env hl MAX_RETRIES 0 sem hc k hk (by simpa using hp)
      (by intro j hj; simpa using hm j hj)

/-- A clean callback interleaving: every submission is accepted, each
attempt receives its own in-window signal (negative until attempt 2, then
positive), and no callback arrives late. -/
def cleanTrace : Nat → AttemptEnv := fun i =>
  ⟨true, if i = 2 then some true else some false, none⟩

/-- Closed instance of the C2 theorem on the cleanTrace interleaving. -/
theorem C2_send_with_retry_semantics_witness :
    (send_with_retry cleanTrace ⟨false, false⟩).2.2 ≤ MAX_RETRIES
    ∧ ((send_with_retry cleanTrace ⟨false, false⟩).1 = false ↔
        ∀ k < MAX_RETRIES, ¬ posAt cleanTrace k)
    ∧ (∀ k, k < MAX_RETRIES → posAt cleanTrace k → (∀ j, j < k → ¬ posAt cleanTrace j) →
        (send_with_retry cleanTrace ⟨false, false⟩).1 = true
        ∧ (send_with_retry cleanTrace ⟨false, false⟩).2.2 = k + 1) :=
  C2_send_with_retry_semantics cleanTrace ⟨false, false⟩ rfl (fun _ => rfl)

end EspNowTwoWay
